import Mathlib

/-!
Verification development for the TaskManager library: a shallow embedding of
the worker state machine (SyncedWorker in the worker translation unit), the
packaged-task lifecycle (Task.hpp), and the TaskQueue scheduler
(TaskScheduler.cpp / TaskScheduler.hpp), together with theorems about the
behaviour of those definitions.

Locks make each public operation of the C++ code atomic with respect to the
shared state it protects; the embedding therefore models each lock-protected
section as one atomic state transformation, and records side effects
(condition-variable notifications, calls into the scheduler) as explicit data
so that their presence or absence can be reasoned about.
-/

namespace TaskManager

/-! ## Worker state machine (SyncedWorker) -/

/-- The worker state enumeration `Worker::State` from Worker.hpp. -/
inductive WState
  | TERMINATE
  | WAIT
  | WORK
deriving DecidableEq, Repr

/-- Result of one call to `SyncedWorker::requestState`, embedded from the
worker translation unit:

* `assertOK` is the value of the debug-assertion condition as written in the
  source, `requestedState == State::TERMINATE || state != State::TERMINATE`
  (the string literal conjoined to the second disjunct is truthy, so C++
  operator precedence reduces the asserted expression to this disjunction);
* `newRequested` is the value of `requestedState` after the body runs
  (release semantics: the body runs whether or not the assertion holds);
* `notifyWait` records whether `waitVariable.notify_all()` is called, which
  the source does exactly when the requested state changes away from `WAIT`. -/
structure ReqResult where
  assertOK : Bool
  newRequested : WState
  notifyWait : Bool
deriving DecidableEq, Repr

/-- Embedding of `SyncedWorker::requestState(State state)`: under the worker
lock, evaluate the debug assertion condition; then, when `requestedState !=
state`, set `notifyWait` when leaving `WAIT` and assign `requestedState =
state`; after releasing the lock, notify `waitVariable` when `notifyWait`. -/
def requestState (requested s : WState) : ReqResult :=
  { assertOK := requested == WState.TERMINATE || s != WState.TERMINATE
    newRequested := if requested != s then s else requested
    notifyWait := requested != s && requested == WState.WAIT }

/-- The externally visible calls a `requestState` invocation can make after
its locked section. The source can notify the worker's own `waitVariable`;
it contains no call to the scheduler's `checkWaitingPredicates`. -/
inductive WorkerCall
  | notifyWaitVariable
  | schedulerCheckWaitingPredicates
deriving DecidableEq, Repr

/-- The sequence of outgoing calls made by one `SyncedWorker::requestState`
invocation, read off the source body: `waitVariable.notify_all()` exactly
when `notifyWait` was set, and nothing else. -/
def requestStateCalls (requested s : WState) : List WorkerCall :=
  if (requestState requested s).notifyWait then [WorkerCall.notifyWaitVariable] else []

/-- The scheduling predicate both worker variants pass to
`startScheduledWork` in `SyncedWorker::runLoop` (the asynchronous worker
inherits the same run loop): it ignores its `workAvailable` parameter and
returns whether the requested state is `WORK` at the moment of evaluation. -/
def workerPredicate (requested : WState) (workAvailable : Bool) : Bool :=
  requested == WState.WORK

/-! ## Task lifecycle (Task.hpp, PackagedTask) -/

/-- The three-variant task outcome `TypedTaskResult`: a value, the
cancellation marker, or a captured failure (kept here as its extracted
message). -/
inductive TaskOutcome (R : Type)
  | value (r : R)
  | cancelled
  | failed (msg : String)
deriving DecidableEq, Repr

/-- What the packaged callable does when invoked on its captured arguments:
return normally, raise the designated cancellation signal `TaskCancellation`,
or raise any other failure. -/
inductive CallBehavior (R : Type)
  | ret (r : R)
  | raiseCancellation
  | raiseError (msg : String)
deriving DecidableEq, Repr

/-- State of a `PackagedTask`: the `started` flag and the promise/future
slot, `none` until the promise is satisfied. -/
structure PackagedTask (R : Type) where
  started : Bool
  published : Option (TaskOutcome R)
deriving DecidableEq, Repr

/-- Embedding of `PackagedTask::launch` for a callable whose invocation
behaves as `beh`: set `started`, invoke the callable, and publish the
outcome through the promise — the return value on normal return, the
cancellation marker when the callable raised `TaskCancellation`, and the
captured failure on any other raised failure. The catch-all handlers mean
the function is total: no raised failure escapes to the caller. -/
def PackagedTask.launch (t : PackagedTask R) (beh : CallBehavior R) : PackagedTask R :=
  match beh with
  | CallBehavior.ret r => { t with started := true, published := some (TaskOutcome.value r) }
  | CallBehavior.raiseCancellation =>
      { t with started := true, published := some TaskOutcome.cancelled }
  | CallBehavior.raiseError m =>
      { t with started := true, published := some (TaskOutcome.failed m) }

/-- Embedding of `PackagedTask::cancel`: when not yet started, mark
`started` and publish the cancellation marker; otherwise do nothing. -/
def PackagedTask.cancel (t : PackagedTask R) : PackagedTask R :=
  if t.started then t
  else { t with started := true, published := some TaskOutcome.cancelled }

/-- Embedding of `Task::~Task` on a task that has not been moved from: after
the debug `assertInactive` check it calls `cancel()` on the packaged task. -/
def taskDtor (t : PackagedTask R) : PackagedTask R :=
  t.cancel

/-! ## Claim theorems: worker and task -/

/-- C1. The claim states that once the requested state is `TERMINATE`,
`request_state(s)` with `s != TERMINATE` is rejected (asserted in debug) and
leaves the requested state `TERMINATE`. The code does the opposite: at the
failing input `requested = TERMINATE`, `s = WORK`, the assertion condition
as written holds (so debug builds do not reject the call) and the body
overwrites the requested state with `WORK`, leaving `TERMINATE`; moreover
the assertion fires instead on the legitimate first request of `TERMINATE`
from `WORK`, contradicting its own message that state cannot leave the
terminated state. -/
theorem c1_requestState_leaves_terminate :
    (requestState WState.TERMINATE WState.WORK).assertOK = true ∧
    (requestState WState.TERMINATE WState.WORK).newRequested = WState.WORK ∧
    (requestState WState.TERMINATE WState.WORK).newRequested ≠ WState.TERMINATE ∧
    (requestState WState.WORK WState.TERMINATE).assertOK = false := by
  decide

/-- C2 counterexample. The claim states that every `request_state` call
whose transition leaves `WAIT` both wakes the worker's own condition
variable and calls the scheduler's `check_waiting_predicates`. At the
concrete transition `WAIT → WORK` the source makes exactly one outgoing
call, `waitVariable.notify_all()`; no call to
`checkWaitingPredicates` occurs. -/
theorem c2_no_scheduler_call :
    requestStateCalls WState.WAIT WState.WORK = [WorkerCall.notifyWaitVariable] ∧
    WorkerCall.schedulerCheckWaitingPredicates ∉ requestStateCalls WState.WAIT WState.WORK := by
  decide

/-- C2 (amended). Every `request_state(s)` call whose transition leaves
`WAIT` (requested was `WAIT` and `s != WAIT`) wakes the worker's own
condition variable, and no `request_state` call ever calls the scheduler's
`check_waiting_predicates`. -/
theorem c2_requestState_wait_transition (requested s : WState) :
    (requested = WState.WAIT → s ≠ WState.WAIT →
      requestStateCalls requested s = [WorkerCall.notifyWaitVariable]) ∧
    WorkerCall.schedulerCheckWaitingPredicates ∉ requestStateCalls requested s := by
  cases requested <;> cases s <;> decide

/-- Witness for C2 at the concrete transition `WAIT → TERMINATE`. -/
theorem c2_requestState_wait_transition_witness :
    requestStateCalls WState.WAIT WState.TERMINATE = [WorkerCall.notifyWaitVariable] ∧
    WorkerCall.schedulerCheckWaitingPredicates ∉
      requestStateCalls WState.WAIT WState.TERMINATE :=
  ⟨(c2_requestState_wait_transition WState.WAIT WState.TERMINATE).1 rfl (by decide),
   (c2_requestState_wait_transition WState.WAIT WState.TERMINATE).2⟩

/-- C10. The scheduling predicate every worker passes to
`startScheduledWork` ignores its `workAvailable` argument entirely — its
value is the same for both argument values — and returns `true` exactly
when the worker's requested state is `WORK`. -/
theorem c10_worker_predicate_ignores_argument (requested : WState) (b : Bool) :
    workerPredicate requested b = workerPredicate requested true ∧
    workerPredicate requested b = decide (requested = WState.WORK) := by
  cases requested <;> cases b <;> decide

/-- C5. For a task not yet started (and not moved from), `launch` sets
`started` and publishes exactly one outcome: the value on normal return,
`Cancelled` when the callable raises `TaskCancellation`, and `Failed` with
the captured failure on any other raised failure; an outcome is always
published, so no failure propagates out of `launch`. -/
theorem c5_launch_publishes_outcome (R : Type) (t : PackagedTask R)
    (beh : CallBehavior R) (h : t.started = false) :
    (t.launch beh).started = true ∧
    (t.launch beh).published.isSome = true ∧
    (∀ r : R, beh = CallBehavior.ret r →
      (t.launch beh).published = some (TaskOutcome.value r)) ∧
    (beh = CallBehavior.raiseCancellation →
      (t.launch beh).published = some TaskOutcome.cancelled) ∧
    (∀ m : String, beh = CallBehavior.raiseError m →
      (t.launch beh).published = some (TaskOutcome.failed m)) := by
  cases beh <;> refine ⟨rfl, rfl, ?_, ?_, ?_⟩ <;> intros <;>
    simp_all [PackagedTask.launch]

/-- Witness for C5 at a concrete unstarted task returning the value 7. -/
theorem c5_launch_publishes_outcome_witness :
    (PackagedTask.launch ({ started := false, published := none } : PackagedTask Nat)
        (CallBehavior.ret 7)).started = true ∧
    (PackagedTask.launch ({ started := false, published := none } : PackagedTask Nat)
        (CallBehavior.ret 7)).published = some (TaskOutcome.value 7) := by
  have h := c5_launch_publishes_outcome Nat
    { started := false, published := none } (CallBehavior.ret 7) rfl
  exact ⟨h.1, h.2.2.1 7 rfl⟩

/-- C6. `cancel()` on a task whose `started` flag is false marks `started`
and publishes `Cancelled`; `cancel()` after the task has started leaves the
task (and so its published outcome) unchanged; destroying a task whose
`started` flag is false causes its future to observe `Cancelled`. -/
theorem c6_cancel_and_drop (R : Type) (t : PackagedTask R) :
    (t.started = false →
      t.cancel.started = true ∧ t.cancel.published = some TaskOutcome.cancelled) ∧
    (t.started = true → t.cancel = t) ∧
    (t.started = false → (taskDtor t).published = some TaskOutcome.cancelled) := by
  refine ⟨?_, ?_, ?_⟩ <;> intro h <;>
    simp [PackagedTask.cancel, taskDtor, h]

/-- Witness for C6 at a concrete unstarted task. -/
theorem c6_cancel_and_drop_witness :
    (PackagedTask.cancel
        ({ started := false, published := none } : PackagedTask Nat)).started = true ∧
    (PackagedTask.cancel
        ({ started := false, published := none } : PackagedTask Nat)).published =
      some TaskOutcome.cancelled ∧
    (taskDtor ({ started := false, published := none } : PackagedTask Nat)).published =
      some TaskOutcome.cancelled := by
  have h := c6_cancel_and_drop Nat { started := false, published := none }
  exact ⟨(h.1 rfl).1, (h.1 rfl).2, h.2.2 rfl⟩

/-! ## TaskQueue scheduler (TaskScheduler.cpp)

Pending tasks are identified by natural-number ids; the queue is the list of
pending ids in FIFO order (front at the head). Each function below is the
body of one lock-protected section of the source, and returns alongside the
new state the side effects the source performs there. -/

/-- The fields of `TaskQueue::Scheduler::Impl` together with the `completed`
flag of `TaskSchedulerBase`: whether the queue still admits tasks
(`queueActive`), the pending FIFO, the number of workers currently executing
a task (`working`), and the latched completion flag. -/
structure SchedState where
  queueActive : Bool
  queue : List Nat
  working : Nat
  completed : Bool
deriving DecidableEq, Repr

/-- The freshly constructed scheduler: queue active and empty, no workers
working, not completed. -/
def SchedState.init : SchedState :=
  { queueActive := true, queue := [], working := 0, completed := false }

/-- Embedding of `TaskQueue::Scheduler::checkCompleted`: when no worker is
working, the queue is empty and the queue is no longer active, call
`setCompleted` (latching `completed` and waking all completion waiters) and
`checkWaitingPredicates` (waking all workers blocked in
`startScheduledWork`). The returned flag records whether this notify-all
branch was taken. -/
def SchedState.checkCompletedE (s : SchedState) : SchedState × Bool :=
  if s.working == 0 && s.queue.isEmpty && !s.queueActive then
    ({ s with completed := true }, true)
  else (s, false)

/-- Side effect of `TaskQueue::addTask`: either the task was pushed to the
tail and one waiter was signalled, or the task was dropped (the moved-in
`Task` is destroyed at the end of the call). -/
inductive AddEffect
  | pushedNotifyOne
  | dropped
deriving DecidableEq, Repr

/-- Embedding of `TaskQueue::addTask`: under the lock, when the queue is
active push the task id to the tail and `notify_one`; otherwise leave the
state untouched and drop the task. -/
def SchedState.addTask (s : SchedState) (i : Nat) : SchedState × AddEffect :=
  if s.queueActive then ({ s with queue := s.queue ++ [i] }, AddEffect.pushedNotifyOne)
  else (s, AddEffect.dropped)

/-- Embedding of `TaskQueue::cancel`: swap the pending queue with an empty
one (destroying, hence drop-cancelling, every pending task — the returned
list is the ids dropped), then `checkCompleted`; the returned flag records
whether that check latched completion and woke all waiters. -/
def SchedState.cancelQueue (s : SchedState) : SchedState × Bool × List Nat :=
  let dropped := s.queue
  let r := SchedState.checkCompletedE { s with queue := [] }
  (r.1, r.2, dropped)

/-- Embedding of `TaskQueue::close` (the destructor `TaskQueue::~TaskQueue`
has the same body): clear `queueActive`, then `checkCompleted`. -/
def SchedState.close (s : SchedState) : SchedState × Bool :=
  SchedState.checkCompletedE { s with queueActive := false }

/-- The lock-protected section a worker executes after the task invocation
inside one work iteration of `startScheduledWork`: the trailing
`checkCompleted` of `runNextTask` (with this worker still counted in
`working`), then `working--`, then `checkCompleted` again. -/
def SchedState.endTask (s : SchedState) : SchedState :=
  let s1 := (SchedState.checkCompletedE s).1
  let s2 := { s1 with working := s1.working - 1 }
  (SchedState.checkCompletedE s2).1

/-- The atomic actions one iteration of
`TaskQueue::Scheduler::startScheduledWork` performs, in source order:
compute `workReady`; break on `isCompleted`; evaluate the predicate on
`workReady` and break when it returns false; in the work branch increment
`working`, pop the front task, release the scheduler lock, invoke the task,
reacquire the lock, run `checkCompleted` (recording whether it latched),
decrement `working`, and run `checkCompleted` again; in the no-work branch
wait on the scheduler condition variable. -/
inductive SchedAction
  | computeWorkReady (w : Bool)
  | breakCompleted
  | evalPredicate (w r : Bool)
  | breakPredicate
  | incWorking
  | popFront (i : Nat)
  | unlockScheduler
  | invokeTask (i : Nat)
  | lockScheduler
  | checkCompletion (latched : Bool)
  | decWorking
  | waitOnVariable
deriving DecidableEq, Repr

/-- How one iteration of the `startScheduledWork` loop ends: `brk` leaves
the loop (the call returns), `blocked` parks on the scheduler condition and
loops on wake, `ran` executed the given task and loops. Each carries the
scheduler state at the end of the iteration. -/
inductive IterOutcome
  | brk (s : SchedState)
  | blocked (s : SchedState)
  | ran (i : Nat) (s : SchedState)
deriving DecidableEq, Repr

/-- Embedding of one iteration of the `while (true)` loop of
`TaskQueue::Scheduler::startScheduledWork`, for a predicate whose value is
`pred`, returning the action trace of the iteration and its outcome. The
source computes `workReady = !queue.empty()` first, then breaks on
`isCompleted(lock) || !predicate(workReady)` (short-circuit: the predicate
is not evaluated when completed); in the work branch it performs
`working++`, `runNextTask(lock)` (pop front, `Unlock` around `task()`, then
`checkCompleted`), `working--`, `checkCompleted(lock)`; otherwise it waits
on the condition variable. The task invocation is modelled as not touching
the scheduler state (the lock is released around it; interference occupies
that window). -/
def startScheduledIter (pred : Bool → Bool) (s : SchedState) : List SchedAction × IterOutcome :=
  let workReady := !s.queue.isEmpty
  if s.completed then
    ([SchedAction.computeWorkReady workReady, SchedAction.breakCompleted], IterOutcome.brk s)
  else if !pred workReady then
    ([SchedAction.computeWorkReady workReady, SchedAction.evalPredicate workReady false,
      SchedAction.breakPredicate], IterOutcome.brk s)
  else
    match s.queue with
    | i :: rest =>
        let s1 : SchedState := { s with working := s.working + 1, queue := rest }
        let r2 := SchedState.checkCompletedE s1
        let s3 : SchedState := { r2.1 with working := r2.1.working - 1 }
        let r4 := SchedState.checkCompletedE s3
        ([SchedAction.computeWorkReady true, SchedAction.evalPredicate true true,
          SchedAction.incWorking, SchedAction.popFront i, SchedAction.unlockScheduler,
          SchedAction.invokeTask i, SchedAction.lockScheduler,
          SchedAction.checkCompletion r2.2, SchedAction.decWorking,
          SchedAction.checkCompletion r4.2], IterOutcome.ran i r4.1)
    | [] =>
        ([SchedAction.computeWorkReady false, SchedAction.evalPredicate false true,
          SchedAction.waitOnVariable], IterOutcome.blocked s)

/-! ## Transition system over the scheduler state

Each event is one lock-protected section: a producer call (`addTask`,
`close`, `cancel`; the front-end destructor repeats `close`), or the two
lock-protected halves of a worker's work iteration (`beginTask`: the guard,
`working++` and the pop before the lock is released around the task;
`endTask`: the completion bookkeeping after the lock is reacquired).
Interleaving between `beginTask` and `endTask` models the lock being
released while the task runs. -/

/-- Events of the scheduler transition system. -/
inductive Event
  | add (i : Nat)
  | beginTask (i : Nat)
  | endTask
  | close
  | cancel
deriving DecidableEq, Repr

/-- One atomic lock-protected section, as a step relation on scheduler
states. `beginTask` is enabled exactly when the source reaches the work
branch: `isCompleted` was false and the queue non-empty (the predicate
having returned true); `endTask` is enabled while this worker is counted in
`working`. -/
inductive Step : SchedState → Event → SchedState → Prop
  | add (s : SchedState) (i : Nat) : Step s (Event.add i) (s.addTask i).1
  | beginTask (s : SchedState) (i : Nat) (rest : List Nat)
      (hc : s.completed = false) (hq : s.queue = i :: rest) :
      Step s (Event.beginTask i) { s with queue := rest, working := s.working + 1 }
  | endTask (s : SchedState) (hw : 0 < s.working) : Step s Event.endTask s.endTask
  | close (s : SchedState) : Step s Event.close (SchedState.close s).1
  | cancel (s : SchedState) : Step s Event.cancel s.cancelQueue.1

/-- Reachability from the freshly constructed scheduler. -/
inductive Reach : SchedState → Prop
  | init : Reach SchedState.init
  | step (s s' : SchedState) (e : Event) (h : Reach s) (hs : Step s e s') : Reach s'

/-- A finite execution: the list of events performed so far and the state
they lead to. -/
inductive Trace : List Event → SchedState → Prop
  | init : Trace [] SchedState.init
  | step (tr : List Event) (s s' : SchedState) (e : Event)
      (h : Trace tr s) (hs : Step s e s') : Trace (tr ++ [e]) s'

/-- The task ids that began execution during a trace, in order. -/
def begunTasks (tr : List Event) : List Nat :=
  tr.filterMap fun e =>
    match e with
    | Event.beginTask i => some i
    | _ => none

/-- The task ids submitted during a trace, in order (dropped submissions
included). -/
def addedTasks (tr : List Event) : List Nat :=
  tr.filterMap fun e =>
    match e with
    | Event.add i => some i
    | _ => none

/-! ## Helper lemmas about checkCompleted -/

theorem checkCompletedE_queue (s : SchedState) :
    (SchedState.checkCompletedE s).1.queue = s.queue := by
  unfold SchedState.checkCompletedE
  split <;> rfl

theorem checkCompletedE_active (s : SchedState) :
    (SchedState.checkCompletedE s).1.queueActive = s.queueActive := by
  unfold SchedState.checkCompletedE
  split <;> rfl

theorem checkCompletedE_working (s : SchedState) :
    (SchedState.checkCompletedE s).1.working = s.working := by
  unfold SchedState.checkCompletedE
  split <;> rfl

theorem checkCompletedE_completed (s : SchedState) :
    (SchedState.checkCompletedE s).1.completed =
      (s.completed || (s.working == 0 && s.queue.isEmpty && !s.queueActive)) := by
  unfold SchedState.checkCompletedE
  split <;> simp_all

theorem checkCompletedE_flag (s : SchedState) :
    (SchedState.checkCompletedE s).2 =
      (s.working == 0 && s.queue.isEmpty && !s.queueActive) := by
  unfold SchedState.checkCompletedE
  split <;> simp_all

theorem checkCompletedE_eq (s : SchedState) :
    SchedState.checkCompletedE s =
      ({ s with completed :=
          s.completed || (s.working == 0 && s.queue.isEmpty && !s.queueActive) },
       s.working == 0 && s.queue.isEmpty && !s.queueActive) := by
  unfold SchedState.checkCompletedE
  split <;> rename_i h
  · rw [h]
    simp
  · rw [Bool.not_eq_true] at h
    rw [h]
    simp

/-- The completion invariant maintained by every lock-protected section, in
the form of the condition tested by `checkCompleted`. -/
theorem reach_completed_eq (s : SchedState) (h : Reach s) :
    s.completed = (s.working == 0 && s.queue.isEmpty && !s.queueActive) := by
  induction h with
  | init => rfl
  | step s s' e h hs ih =>
    cases hs with
    | add i =>
      by_cases hA : s.queueActive = true
      · simp [SchedState.addTask, hA] at ih ⊢
        exact ih
      · simpa [SchedState.addTask, hA] using ih
    | beginTask i rest hc hq =>
      rw [hq] at ih
      simp at ih
      simp [ih]
    | endTask hw =>
      have hw0 : (s.working == 0) = false := by
        simp only [beq_eq_false_iff_ne, ne_eq]
        omega
      rw [hw0] at ih
      simp at ih
      simp [SchedState.endTask, checkCompletedE_completed, checkCompletedE_queue,
        checkCompletedE_active, checkCompletedE_working, ih, hw0]
    | close =>
      simp only [SchedState.close]
      cases hw : (s.working == 0) <;> cases he : s.queue.isEmpty <;>
        cases hA : s.queueActive <;>
        simp_all [checkCompletedE_completed, checkCompletedE_queue,
          checkCompletedE_active, checkCompletedE_working]
    | cancel =>
      simp only [SchedState.cancelQueue]
      cases hw : (s.working == 0) <;> cases he : s.queue.isEmpty <;>
        cases hA : s.queueActive <;>
        simp_all [checkCompletedE_completed, checkCompletedE_queue,
          checkCompletedE_active, checkCompletedE_working]

/-- Once `completed` is set, `checkCompleted` keeps it set. -/
theorem checkCompletedE_latched (s : SchedState) (hc : s.completed = true) :
    (SchedState.checkCompletedE s).1.completed = true := by
  rw [checkCompletedE_completed, hc]
  rfl

/-- C3. On every reachable scheduler state, `completed` holds exactly when
the queue is closed, the pending queue is empty and the working counter is
zero; every step from a completed state keeps `completed` set; and from a
completed state no `beginTask` step (the lock-protected section that starts
executing a task) is enabled. -/
theorem c3_completed_latch (s : SchedState) (h : Reach s) :
    (s.completed = true ↔ s.queueActive = false ∧ s.queue = [] ∧ s.working = 0) ∧
    (∀ e s', Step s e s' → s.completed = true → s'.completed = true) ∧
    (s.completed = true → ∀ i s', ¬ Step s (Event.beginTask i) s') := by
  refine ⟨?_, ?_, ?_⟩
  · rw [reach_completed_eq s h]
    simp [List.isEmpty_iff]
    tauto
  · intro e s' hs hc
    cases hs with
    | add i =>
      by_cases hA : s.queueActive = true <;> simp [SchedState.addTask, hA, hc]
    | beginTask i rest hcf hq => simp_all
    | endTask hw =>
      simp [SchedState.endTask, checkCompletedE_completed, checkCompletedE_queue,
        checkCompletedE_active, checkCompletedE_working, hc]
    | close =>
      simp [SchedState.close, checkCompletedE_completed, hc]
    | cancel =>
      simp [SchedState.cancelQueue, checkCompletedE_completed, hc]
  · intro hc i s' hs
    cases hs
    simp_all

/-- Witness for C3 at the concrete reachable state obtained by closing a
freshly constructed queue: completion has latched, the conclusion of the
claim holds there, and in particular no task can begin execution. -/
theorem c3_completed_latch_witness :
    ((SchedState.close SchedState.init).1.completed = true ↔
      (SchedState.close SchedState.init).1.queueActive = false ∧
      (SchedState.close SchedState.init).1.queue = [] ∧
      (SchedState.close SchedState.init).1.working = 0) ∧
    (∀ e s', Step (SchedState.close SchedState.init).1 e s' →
      (SchedState.close SchedState.init).1.completed = true → s'.completed = true) ∧
    ((SchedState.close SchedState.init).1.completed = true →
      ∀ i s', ¬ Step (SchedState.close SchedState.init).1 (Event.beginTask i) s') :=
  c3_completed_latch (SchedState.close SchedState.init).1
    (Reach.step SchedState.init (SchedState.close SchedState.init).1 Event.close
      Reach.init (Step.close SchedState.init))

/-- C4. Every iteration of `startScheduledWork(predicate)` follows the
claimed protocol: under the scheduler lock it computes `workReady` as
queue-not-empty; it returns when completed (without consulting the
predicate); it returns when the predicate applied to `workReady` is false;
when work is available it increments `working`, pops the front task,
releases the scheduler lock, invokes the task, reacquires the lock,
decrements `working` (net `working` unchanged across the iteration),
re-evaluates completion, and loops (outcome `ran`); otherwise it blocks on
the scheduler condition and loops on wake (outcome `blocked`). -/
theorem c4_start_scheduled_work_protocol (pred : Bool → Bool) (s : SchedState) :
    (s.completed = true →
      startScheduledIter pred s =
        ([SchedAction.computeWorkReady (!s.queue.isEmpty), SchedAction.breakCompleted],
         IterOutcome.brk s)) ∧
    (s.completed = false → pred (!s.queue.isEmpty) = false →
      startScheduledIter pred s =
        ([SchedAction.computeWorkReady (!s.queue.isEmpty),
          SchedAction.evalPredicate (!s.queue.isEmpty) false, SchedAction.breakPredicate],
         IterOutcome.brk s)) ∧
    (∀ i rest, s.completed = false → pred true = true → s.queue = i :: rest →
      startScheduledIter pred s =
        ([SchedAction.computeWorkReady true, SchedAction.evalPredicate true true,
          SchedAction.incWorking, SchedAction.popFront i, SchedAction.unlockScheduler,
          SchedAction.invokeTask i, SchedAction.lockScheduler,
          SchedAction.checkCompletion false, SchedAction.decWorking,
          SchedAction.checkCompletion (s.working == 0 && rest.isEmpty && !s.queueActive)],
         IterOutcome.ran i
           { queueActive := s.queueActive, queue := rest, working := s.working,
             completed := s.working == 0 && rest.isEmpty && !s.queueActive })) ∧
    (s.completed = false → pred false = true → s.queue = [] →
      startScheduledIter pred s =
        ([SchedAction.computeWorkReady false, SchedAction.evalPredicate false true,
          SchedAction.waitOnVariable], IterOutcome.blocked s)) := by
  refine ⟨?_, ?_, ?_, ?_⟩
  · intro hc
    simp [startScheduledIter, hc]
  · intro hc hp
    simp [startScheduledIter, hc, hp]
  · intro i rest hc hp hq
    have hw1 : ((s.working + 1 : Nat) == 0) = false := by
      simp only [beq_eq_false_iff_ne, ne_eq]
      omega
    simp [startScheduledIter, hc, hp, hq, checkCompletedE_eq, hw1]
  · intro hc hp hq
    simp [startScheduledIter, hc, hq, hp]

/-- Witness for C4: on an open scheduler with the single pending task 7, no
worker working and an always-true predicate, the iteration runs task 7 and
ends with an empty queue, the working counter restored to zero and
completion unlatched. -/
theorem c4_start_scheduled_work_protocol_witness :
    (startScheduledIter (fun _ => true)
        { queueActive := true, queue := [7], working := 0, completed := false }).2 =
      IterOutcome.ran 7
        { queueActive := true, queue := [], working := 0, completed := false } := by
  have h := (c4_start_scheduled_work_protocol (fun _ => true)
    { queueActive := true, queue := [7], working := 0, completed := false }).2.2.1
    7 [] rfl rfl rfl
  simp [h]

/-- C7. The queue never reopens (every step preserves closedness), an
`addTask` on a closed queue leaves the scheduler state unchanged and drops
the task, an `addTask` on an open queue pushes to the tail and signals one
waiter, and a dropped (never-started) task's destructor publishes
`Cancelled` to its future. -/
theorem c7_add_task_after_close (s : SchedState) (i : Nat) :
    (s.queueActive = false → s.addTask i = (s, AddEffect.dropped)) ∧
    (s.queueActive = true →
      s.addTask i = ({ s with queue := s.queue ++ [i] }, AddEffect.pushedNotifyOne)) ∧
    (∀ e s', Step s e s' → s.queueActive = false → s'.queueActive = false) ∧
    (∀ (R : Type) (t : PackagedTask R), t.started = false →
      (taskDtor t).published = some TaskOutcome.cancelled) := by
  refine ⟨?_, ?_, ?_, ?_⟩
  · intro hA
    simp [SchedState.addTask, hA]
  · intro hA
    simp [SchedState.addTask, hA]
  · intro e s' hs hA
    cases hs with
    | add j =>
      simp [SchedState.addTask, hA]
    | beginTask j rest hcf hq => simp [hA]
    | endTask hw =>
      simp [SchedState.endTask, checkCompletedE_active, hA]
    | close =>
      simp [SchedState.close, checkCompletedE_active]
    | cancel =>
      simp [SchedState.cancelQueue, checkCompletedE_active, hA]
  · intro R t ht
    simp [taskDtor, PackagedTask.cancel, ht]

/-- Witness for C7: adding task 3 to a concrete closed queue leaves the
state unchanged and drops the task, and a dropped unstarted task's future
observes `Cancelled`. -/
theorem c7_add_task_after_close_witness :
    SchedState.addTask { queueActive := false, queue := [], working := 0, completed := true } 3 =
      ({ queueActive := false, queue := [], working := 0, completed := true },
        AddEffect.dropped) ∧
    (taskDtor ({ started := false, published := none } : PackagedTask Nat)).published =
      some TaskOutcome.cancelled :=
  ⟨(c7_add_task_after_close
      { queueActive := false, queue := [], working := 0, completed := true } 3).1 rfl,
   (c7_add_task_after_close
      { queueActive := false, queue := [], working := 0, completed := true } 3).2.2.2
      Nat { started := false, published := none } rfl⟩

/-- C8 counterexample. The claim states that `cancel()` always wakes all
waiters. On the concrete open queue holding the single pending task 5 with
no worker working, `cancel` clears the queue but takes no notify branch at
all: completion does not latch and no waiter is woken. -/
theorem c8_cancel_open_queue_no_wake :
    SchedState.queueActive
        { queueActive := true, queue := [5], working := 0, completed := false } = true ∧
    (SchedState.cancelQueue
        { queueActive := true, queue := [5], working := 0, completed := false }).2.1 = false := by
  decide

/-- C8 (amended). `cancel()` clears the pending queue, dropping exactly the
pending tasks (each dropped, never-started task's future observes
`Cancelled` through its destructor), re-evaluates the completion latch,
and leaves the open flag and the working counter unchanged; it wakes the
waiters exactly when that re-evaluation latches completion (the queue is
closed and no worker is working) — in particular `cancel()` on an open
queue never latches completion and wakes no waiter. -/
theorem c8_cancel_clears_queue (s : SchedState) :
    (s.cancelQueue.1.queue = [] ∧
     s.cancelQueue.2.2 = s.queue ∧
     s.cancelQueue.1.queueActive = s.queueActive ∧
     s.cancelQueue.1.working = s.working ∧
     s.cancelQueue.1.completed = (s.completed || (s.working == 0 && !s.queueActive)) ∧
     s.cancelQueue.2.1 = (s.working == 0 && !s.queueActive)) ∧
    (s.queueActive = true → s.cancelQueue.1.completed = s.completed) ∧
    (∀ (R : Type) (t : PackagedTask R), t.started = false →
      (taskDtor t).published = some TaskOutcome.cancelled) := by
  refine ⟨⟨?_, ?_, ?_, ?_, ?_, ?_⟩, ?_, ?_⟩
  · simp [SchedState.cancelQueue, checkCompletedE_queue]
  · rfl
  · simp [SchedState.cancelQueue, checkCompletedE_active]
  · simp [SchedState.cancelQueue, checkCompletedE_working]
  · simp [SchedState.cancelQueue, checkCompletedE_completed]
  · simp [SchedState.cancelQueue, checkCompletedE_flag]
  · intro hA
    simp [SchedState.cancelQueue, checkCompletedE_completed, hA]
  · intro R t ht
    simp [taskDtor, PackagedTask.cancel, ht]

/-- Witness for C8 at a concrete open queue with one pending task and one
working worker: the queue is cleared, completion stays unlatched, and a
dropped unstarted task's future observes `Cancelled`. -/
theorem c8_cancel_clears_queue_witness :
    (SchedState.cancelQueue
        { queueActive := true, queue := [4], working := 1, completed := false }).1.queue = [] ∧
    (SchedState.cancelQueue
        { queueActive := true, queue := [4], working := 1, completed := false }).1.completed =
      false ∧
    (taskDtor ({ started := false, published := none } : PackagedTask Nat)).published =
      some TaskOutcome.cancelled :=
  ⟨(c8_cancel_clears_queue
      { queueActive := true, queue := [4], working := 1, completed := false }).1.1,
   (c8_cancel_clears_queue
      { queueActive := true, queue := [4], working := 1, completed := false }).2.1 rfl,
   (c8_cancel_clears_queue
      { queueActive := true, queue := [4], working := 1, completed := false }).2.2
      Nat { started := false, published := none } rfl⟩

/-! ## FIFO ordering of task starts -/

theorem begunTasks_append (tr tr2 : List Event) :
    begunTasks (tr ++ tr2) = begunTasks tr ++ begunTasks tr2 := by
  simp [begunTasks]

theorem addedTasks_append (tr tr2 : List Event) :
    addedTasks (tr ++ tr2) = addedTasks tr ++ addedTasks tr2 := by
  simp [addedTasks]

/-- Trace invariant: the ids that began execution, followed by the ids
still pending, form a sublist (in order) of the ids submitted. -/
theorem trace_begun_queue_sublist (tr : List Event) (s : SchedState) (h : Trace tr s) :
    (begunTasks tr ++ s.queue).Sublist (addedTasks tr) := by
  induction h with
  | init => simp [begunTasks, addedTasks, SchedState.init]
  | step tr s s' e h hs ih =>
    cases hs with
    | add i =>
      rw [begunTasks_append, addedTasks_append]
      by_cases hA : s.queueActive = true
      · simp only [SchedState.addTask, hA, if_true]
        have : begunTasks [Event.add i] = [] := rfl
        rw [this, List.append_nil]
        have : addedTasks [Event.add i] = [i] := rfl
        rw [this]
        have hgoal : (begunTasks tr ++ (s.queue ++ [i])).Sublist
            ((addedTasks tr) ++ [i]) := by
          rw [← List.append_assoc]
          exact ih.append (List.Sublist.refl [i])
        exact hgoal
      · simp only [SchedState.addTask, hA, if_false]
        have : begunTasks [Event.add i] = [] := rfl
        rw [this, List.append_nil]
        exact ih.trans (List.sublist_append_left (addedTasks tr) (addedTasks [Event.add i]))
    | beginTask i rest hc hq =>
      rw [begunTasks_append, addedTasks_append]
      have h1 : begunTasks [Event.beginTask i] = [i] := rfl
      have h2 : addedTasks [Event.beginTask i] = [] := rfl
      rw [h1, h2, List.append_nil]
      have h3 : (begunTasks tr ++ [i]) ++ rest = begunTasks tr ++ s.queue := by
        rw [List.append_assoc, List.singleton_append, ← hq]
      rw [h3]
      exact ih
    | endTask hw =>
      rw [begunTasks_append, addedTasks_append]
      have h1 : begunTasks [Event.endTask] = [] := rfl
      have h2 : addedTasks [Event.endTask] = [] := rfl
      rw [h1, h2, List.append_nil, List.append_nil]
      have h3 : s.endTask.queue = s.queue := by
        simp [SchedState.endTask, checkCompletedE_queue]
      rw [h3]
      exact ih
    | close =>
      rw [begunTasks_append, addedTasks_append]
      have h1 : begunTasks [Event.close] = [] := rfl
      have h2 : addedTasks [Event.close] = [] := rfl
      rw [h1, h2, List.append_nil, List.append_nil]
      have h3 : (SchedState.close s).1.queue = s.queue := by
        simp [SchedState.close, checkCompletedE_queue]
      rw [h3]
      exact ih
    | cancel =>
      rw [begunTasks_append, addedTasks_append]
      have h1 : begunTasks [Event.cancel] = [] := rfl
      have h2 : addedTasks [Event.cancel] = [] := rfl
      rw [h1, h2, List.append_nil, List.append_nil]
      have h3 : s.cancelQueue.1.queue = [] := by
        simp [SchedState.cancelQueue, checkCompletedE_queue]
      rw [h3, List.append_nil]
      exact (List.sublist_append_left (begunTasks tr) s.queue).trans ih

/-- Two distinct members of a list occur in one of the two relative
orders. -/
theorem pair_sublist_of_mem_of_mem (a b : Nat) :
    ∀ l : List Nat, a ∈ l → b ∈ l → a ≠ b →
      ([a, b].Sublist l ∨ [b, a].Sublist l) := by
  intro l
  induction l with
  | nil => intro ha; cases ha
  | cons x xs ih =>
    intro ha hb hne
    by_cases hxa : x = a
    · subst hxa
      left
      have hbxs : b ∈ xs := by
        rcases List.mem_cons.mp hb with h1 | h2
        · exact absurd h1.symm hne
        · exact h2
      exact List.Sublist.cons₂ x (List.singleton_sublist.mpr hbxs)
    · by_cases hxb : x = b
      · subst hxb
        right
        have haxs : a ∈ xs := by
          rcases List.mem_cons.mp ha with h1 | h2
          · exact absurd h1.symm hxa
          · exact h2
        exact List.Sublist.cons₂ x (List.singleton_sublist.mpr haxs)
      · have haxs : a ∈ xs := by
          rcases List.mem_cons.mp ha with h1 | h2
          · exact absurd h1.symm hxa
          · exact h2
        have hbxs : b ∈ xs := by
          rcases List.mem_cons.mp hb with h1 | h2
          · exact absurd h1.symm hxb
          · exact h2
        rcases ih haxs hbxs hne with h1 | h2
        · exact Or.inl (h1.cons x)
        · exact Or.inr (h2.cons x)

/-- In a duplicate-free list, two elements cannot occur in both relative
orders. -/
theorem pair_sublist_antisymm (a b : Nat) :
    ∀ l : List Nat, l.Nodup → [a, b].Sublist l → [b, a].Sublist l → a = b := by
  intro l
  induction l with
  | nil => intro _ h1; cases h1
  | cons x xs ih =>
    intro hnd h1 h2
    have hx : x ∉ xs := (List.nodup_cons.mp hnd).1
    have hxs : xs.Nodup := (List.nodup_cons.mp hnd).2
    rcases List.sublist_cons_iff.mp h1 with h1t | ⟨r1, he1, hr1⟩
    · rcases List.sublist_cons_iff.mp h2 with h2t | ⟨r2, he2, hr2⟩
      · exact ih hxs h1t h2t
      · -- here x = b while [a, b] <+ xs puts b into xs, contradicting Nodup
        injection he2 with hbx htl2
        rw [← hbx] at hx
        exact absurd (h1t.subset (by simp)) hx
    · rcases List.sublist_cons_iff.mp h2 with h2t | ⟨r2, he2, hr2⟩
      · -- here x = a while [b, a] <+ xs puts a into xs, contradicting Nodup
        injection he1 with hax htl1
        rw [← hax] at hx
        exact absurd (h2t.subset (by simp)) hx
      · -- both heads equal x
        injection he1 with hax htl1
        injection he2 with hbx htl2
        exact hax.trans hbx.symm

/-- C9. Tasks begin execution in submission order: along any trace whose
submitted ids are duplicate-free, if `a` was submitted before `b` and both
began execution, then `a` began execution before `b`. -/
theorem c9_fifo_begin_order (tr : List Event) (s : SchedState) (h : Trace tr s)
    (hnd : (addedTasks tr).Nodup) (a b : Nat)
    (hab : [a, b].Sublist (addedTasks tr))
    (ha : a ∈ begunTasks tr) (hb : b ∈ begunTasks tr) :
    [a, b].Sublist (begunTasks tr) := by
  have hbs : (begunTasks tr).Sublist (addedTasks tr) :=
    (List.sublist_append_left (begunTasks tr) s.queue).trans
      (trace_begun_queue_sublist tr s h)
  have hne : a ≠ b := by
    intro he
    subst he
    have : ([a, a] : List Nat).Nodup := hab.nodup hnd
    simp at this
  rcases pair_sublist_of_mem_of_mem a b (begunTasks tr) ha hb hne with h1 | h2
  · exact h1
  · exact absurd (pair_sublist_antisymm b a (addedTasks tr) hnd (h2.trans hbs) hab)
      (Ne.symm hne)

/-- Witness for C9 on the concrete trace that submits tasks 0 and 1 to a
fresh queue and then begins both: the begin order is exactly 0 before 1. -/
theorem c9_fifo_begin_order_witness :
    [0, 1].Sublist
      (begunTasks [Event.add 0, Event.add 1, Event.beginTask 0, Event.beginTask 1]) := by
  have t0 : Trace [] SchedState.init := Trace.init
  have t1 := Trace.step [] SchedState.init (SchedState.init.addTask 0).1 (Event.add 0)
    t0 (Step.add SchedState.init 0)
  have t2 := Trace.step _ _ (((SchedState.init.addTask 0).1.addTask 1)).1 (Event.add 1)
    t1 (Step.add (SchedState.init.addTask 0).1 1)
  have t3 := Trace.step _ _ _ (Event.beginTask 0)
    t2 (Step.beginTask ((SchedState.init.addTask 0).1.addTask 1).1 0 [1]
      (by decide) (by decide))
  have t4 := Trace.step _ _ _ (Event.beginTask 1)
    t3 (Step.beginTask _ 1 [] (by decide) (by decide))
  exact c9_fifo_begin_order _ _ t4 (by decide) 0 1 (by decide) (by decide) (by decide)

end TaskManager
